import Mathlib

/-!
Shallow embedding of the real-time voice-agent client in `src/App.tsx`:
the capture pipeline (`scriptProcessor.onaudioprocess`), the playback
scheduler and transcript aggregator (the `onmessage` callback), and the
session lifecycle handlers (`connectToGemini`, `disconnect`, `onclose`,
`onerror`, the microphone-failure catch).

Mutable React refs become fields of explicit state records; each callback
becomes a pure state-transition function returning the new state together
with its observable outputs (sent chunks, emitted log messages, release
events).  JavaScript promise semantics for the session handle are modelled
explicitly: a `.then` on a pending promise registers a deferred callback
that runs when the promise resolves.
-/

namespace VoiceAgent

/-- Sender role of a log entry (`LogMessage.sender` in App.tsx). -/
inductive Sender where
  | user
  | agent
  | system
deriving DecidableEq, Repr

/-- A user-visible log entry (App.tsx `LogMessage`, sans id/timestamp,
which are opaque identity data). -/
structure LogMessage where
  sender : Sender
  text : String
deriving DecidableEq, Repr

/-- `type ConnectionState` in App.tsx. -/
inductive ConnectionState where
  | disconnected
  | connecting
  | connected
  | error
deriving DecidableEq, Repr

/-! ## Transcript aggregator (App.tsx lines 205–221, inside `onmessage`) -/

/-- The two transcription accumulators
(`currentInputTranscriptionRef`, `currentOutputTranscriptionRef`). -/
structure TranscriptState where
  inputAcc : String
  outputAcc : String
deriving DecidableEq, Repr

/-- App.tsx lines 206–210: `if (message.serverContent?.outputTranscription)
{ output += text } else if (message.serverContent?.inputTranscription)
{ input += text }`.  The `else if` makes the input branch reachable only
when no output fragment is present. -/
def handleTranscription (outFrag inFrag : Option String) (t : TranscriptState) :
    TranscriptState :=
  match outFrag with
  | some f => { t with outputAcc := t.outputAcc ++ f }
  | none =>
    match inFrag with
    | some f => { t with inputAcc := t.inputAcc ++ f }
    | none => t

/-- App.tsx lines 212–221: on `turnComplete`, flush each non-empty
accumulator into one log entry (input/user first, then output/agent) and
clear it.  JavaScript string truthiness: the branch fires iff the
accumulator is non-empty. -/
def handleTurnComplete (t : TranscriptState) : TranscriptState × List LogMessage :=
  let step1 :=
    if t.inputAcc ≠ "" then
      (({ t with inputAcc := "" } : TranscriptState), [LogMessage.mk Sender.user t.inputAcc])
    else (t, ([] : List LogMessage))
  let t1 := step1.1
  let step2 :=
    if t1.outputAcc ≠ "" then
      (({ t1 with outputAcc := "" } : TranscriptState), [LogMessage.mk Sender.agent t1.outputAcc])
    else (t1, ([] : List LogMessage))
  (step2.1, step1.2 ++ step2.2)

/-! ## Playback scheduler (App.tsx lines 224–259, inside `onmessage`) -/

/-- A scheduled one-shot playback unit (an `AudioBufferSourceNode` entry of
`sourcesRef`), identified by its computed absolute start time and the
duration of its decoded buffer. -/
structure PlaybackSource where
  startTime : ℚ
  duration : ℚ
deriving DecidableEq, Repr

/-- Scheduler state: `nextStartTimeRef` and the active set `sourcesRef`
(kept as a list in insertion order; the code's `Set` preserves insertion
order too). -/
structure SchedulerState where
  nextStartTime : ℚ
  sources : List PlaybackSource
deriving DecidableEq, Repr

/-- App.tsx lines 229–248: for one decoded fragment,
`nextStartTime = max(nextStartTime, ctx.currentTime)`, then
`source.start(nextStartTime)`, `nextStartTime += buffer.duration`,
`sources.add(source)`.  `clock` is `ctx.currentTime` at handling time and
`dur` the decoded buffer duration.  Returns the new state and the created
source. -/
def scheduleFragment (clock dur : ℚ) (s : SchedulerState) :
    SchedulerState × PlaybackSource :=
  let start := max s.nextStartTime clock
  let src : PlaybackSource := ⟨start, dur⟩
  (⟨start + dur, s.sources ++ [src]⟩, src)

/-- App.tsx lines 252–259: on `interrupted`, `source.stop()` for every
active source, `sources.clear()`, `nextStartTime = 0`.  Returns the new
state and the list of sources that received a `stop()` call. -/
def handleInterrupted (s : SchedulerState) : SchedulerState × List PlaybackSource :=
  (⟨0, []⟩, s.sources)

/-- Start times produced by scheduling a sequence of fragments
(`(clock, duration)` pairs in arrival order) from state `s`. -/
def runScheduleStarts (s : SchedulerState) : List (ℚ × ℚ) → List ℚ
  | [] => []
  | (clock, dur) :: rest =>
    let step := scheduleFragment clock dur s
    step.2.startTime :: runScheduleStarts step.1 rest

/-- Scheduler state after scheduling a sequence of fragments from `s`. -/
def runScheduleState (s : SchedulerState) : List (ℚ × ℚ) → SchedulerState
  | [] => s
  | (clock, dur) :: rest => runScheduleState (scheduleFragment clock dur s).1 rest

/-! ## Capture pipeline (App.tsx lines 100–120, `scriptProcessor.onaudioprocess`)

`sessionPromiseRef.current` is a JavaScript promise (or `null`).  Calling
`.then(send)` on a pending promise registers the send as a deferred
callback; all deferred callbacks run, in registration order, when the
promise resolves.  Calling `.then(send)` on a resolved promise runs the
send (on the next microtask).  Chunks are identified by `Nat` ids. -/

/-- The session-handle promise: pending with its registered `.then`
callbacks (the chunks whose send is deferred, in registration order), or
resolved to a live session. -/
inductive SessionPromise where
  | pending (queued : List Nat)
  | resolved
deriving DecidableEq, Repr

/-- Capture-side state: the `isMuted` flag as read by the callback,
`sessionPromiseRef.current`, and the chunks handed to
`session.sendRealtimeInput`, in order. -/
structure CaptureState where
  isMuted : Bool
  sessionPromise : Option SessionPromise
  sent : List Nat
deriving DecidableEq, Repr

/-- App.tsx lines 100–120: `if (isMuted) return;` then
`if (!sessionPromiseRef.current) return;` then
`sessionPromiseRef.current.then(session => session.sendRealtimeInput(...))`.
On a pending promise the `.then` registers a deferred send; on a resolved
promise the send runs. -/
def onaudioprocess (chunk : Nat) (s : CaptureState) : CaptureState :=
  if s.isMuted then s
  else
    match s.sessionPromise with
    | none => s
    | some (SessionPromise.pending q) =>
      { s with sessionPromise := some (SessionPromise.pending (q ++ [chunk])) }
    | some SessionPromise.resolved => { s with sent := s.sent ++ [chunk] }

/-- Resolution of the session promise (the transport finishing its
negotiation): every `.then` callback registered while it was pending now
runs, in registration order, sending its chunk. -/
def resolveSession (s : CaptureState) : CaptureState :=
  match s.sessionPromise with
  | some (SessionPromise.pending q) =>
    { s with sessionPromise := some SessionPromise.resolved, sent := s.sent ++ q }
  | _ => s

/-- A run of consecutive capture-callback invocations on chunks `cs`. -/
def processChunks (cs : List Nat) (s : CaptureState) : CaptureState :=
  cs.foldl (fun st c => onaudioprocess c st) s

/-! ## Session lifecycle (App.tsx lines 138–152, 261–270, 293–315) -/

/-- One microphone `MediaStreamTrack`; `stopped` records whether
`track.stop()` has taken effect (a second `stop()` is a no-op). -/
structure MediaTrack where
  stopped : Bool
deriving DecidableEq, Repr

/-- Whole-app state spanning the lifecycle handlers: the React state
(`connectionState`, `logs`, `isMuted`) and the refs (`nextStartTimeRef`,
`sourcesRef`, `sessionPromiseRef`, the transcription accumulators,
`streamRef`, `inputAudioContextRef`, `outputAudioContextRef`; the audio
contexts are modelled by their presence). -/
structure AppState where
  connectionState : ConnectionState
  logs : List LogMessage
  isMuted : Bool
  nextStartTime : ℚ
  sources : List PlaybackSource
  sessionPromise : Option SessionPromise
  inputAcc : String
  outputAcc : String
  stream : Option (List MediaTrack)
  inputCtx : Option Unit
  outputCtx : Option Unit
deriving DecidableEq, Repr

/-- An observable resource release performed by `disconnect`:
a microphone track actually transitioning to stopped, or an audio context
being closed. -/
inductive ReleaseEvent where
  | trackStopped
  | inputContextClosed
  | outputContextClosed
deriving DecidableEq, Repr

/-- App.tsx lines 293–315, `disconnect`: null the session promise, stop
every stream track, close and null both audio contexts, set state to
`disconnected`, clear `logs`, both accumulators, `nextStartTime` and the
source set.  (`streamRef` itself is not nulled; its tracks are stopped.)
Returns the new state and the observable release events. -/
def disconnect (s : AppState) : AppState × List ReleaseEvent :=
  let trackEvents : List ReleaseEvent :=
    match s.stream with
    | none => []
    | some ts => (ts.filter fun t => !t.stopped).map fun _ => ReleaseEvent.trackStopped
  let inputEvents : List ReleaseEvent :=
    match s.inputCtx with
    | none => []
    | some _ => [ReleaseEvent.inputContextClosed]
  let outputEvents : List ReleaseEvent :=
    match s.outputCtx with
    | none => []
    | some _ => [ReleaseEvent.outputContextClosed]
  (⟨ConnectionState.disconnected, [], s.isMuted, 0, [], none, "", "",
    s.stream.map fun ts => ts.map fun _ => MediaTrack.mk true, none, none⟩,
   trackEvents ++ inputEvents ++ outputEvents)

/-- App.tsx lines 261–265, the transport `onclose` callback:
`setConnectionState('disconnected'); addLog('system', 'Bağlantı kesildi.')`.
Nothing else is touched. -/
def handleClose (s : AppState) : AppState :=
  { s with connectionState := ConnectionState.disconnected,
           logs := s.logs ++ [LogMessage.mk Sender.system "Bağlantı kesildi."] }

/-- App.tsx lines 266–270, the transport `onerror` callback:
`setConnectionState('error'); addLog('system', 'Bağlantı hatası oluştu.')`. -/
def handleError (s : AppState) : AppState :=
  { s with connectionState := ConnectionState.error,
           logs := s.logs ++ [LogMessage.mk Sender.system "Bağlantı hatası oluştu."] }

/-- App.tsx lines 138–142, the catch in `initializeAudio` on microphone
acquisition failure: `setConnectionState('error');
addLog('system', 'Mikrofon hatası. Lütfen izinleri kontrol edin.')`. -/
def handleMicFailure (s : AppState) : AppState :=
  { s with connectionState := ConnectionState.error,
           logs := s.logs ++ [LogMessage.mk Sender.system
             "Mikrofon hatası. Lütfen izinleri kontrol edin."] }

/-- App.tsx lines 113–115: a throwing `session.sendRealtimeInput` is caught
and only `console.error`-ed — no React state (in particular no log entry)
changes. -/
def handleSendFailure (s : AppState) : AppState := s

/-- App.tsx lines 224–236 when `decodeAudioData` rejects: line 229 has
already executed
`nextStartTimeRef.current = Math.max(nextStartTimeRef.current, ctx.currentTime)`
by the time the `await` at line 231 throws, which aborts the rest of the
async `onmessage` body for that fragment — no source is created, scheduled
or added, `nextStartTime` is not advanced by a duration, and no log entry
is added.  The clock bump of line 229 therefore survives. -/
def handleDecodeFailure (clock : ℚ) (s : AppState) : AppState :=
  { s with nextStartTime := max s.nextStartTime clock }

/-- JavaScript truthiness of `API_KEY` (App.tsx line 146, `if (!API_KEY)`):
absent (`undefined`) or the empty string are falsy. -/
def apiKeyPresent : Option String → Bool
  | none => false
  | some k => !(k == "")

/-- Externally visible side effects of a connect request. -/
inductive ConnectEffect where
  | micAcquired
  | transportOpened
deriving DecidableEq, Repr

/-- App.tsx lines 145–152, the prefix of `connectToGemini`: with no API key,
log `'API Key eksik. Lütfen metadata/env kontrol edin.'` and return before
`setConnectionState('connecting')` and before `initializeAudio()` or
`ai.live.connect`.  With a key, the function proceeds (entering
`connecting`, acquiring the microphone and opening the transport — the
remainder of lines 151–290, abstracted here to its state transition and
effects). -/
def connectRequest (apiKey : Option String) (s : AppState) :
    AppState × List ConnectEffect :=
  if apiKeyPresent apiKey then
    ({ s with connectionState := ConnectionState.connecting },
     [ConnectEffect.micAcquired, ConnectEffect.transportOpened])
  else
    ({ s with logs := s.logs ++ [LogMessage.mk Sender.system
        "API Key eksik. Lütfen metadata/env kontrol edin."] }, [])

/-- The initial application state (the `useState`/`useRef` initialisers in
App.tsx lines 31–75). -/
def initialAppState : AppState :=
  ⟨ConnectionState.disconnected, [], false, 0, [], none, "", "", none, none, none⟩

/-! ## Theorems -/

/-- C5: processing a turn-complete signal emits exactly one caller (user)
LogMessage carrying the inbound accumulator when it is non-empty and zero
otherwise, independently exactly one agent LogMessage carrying the outbound
accumulator when it is non-empty and zero otherwise, and leaves both
accumulators empty; with both empty, no LogMessage is emitted. -/
theorem turnComplete_flush (t : TranscriptState) :
    (handleTurnComplete t).1 = ⟨"", ""⟩ ∧
    (handleTurnComplete t).2 =
      (if t.inputAcc ≠ "" then [LogMessage.mk Sender.user t.inputAcc] else []) ++
      (if t.outputAcc ≠ "" then [LogMessage.mk Sender.agent t.outputAcc] else []) ∧
    (handleTurnComplete t).2.filter (fun m => m.sender == Sender.user) =
      (if t.inputAcc ≠ "" then [LogMessage.mk Sender.user t.inputAcc] else []) ∧
    (handleTurnComplete t).2.filter (fun m => m.sender == Sender.agent) =
      (if t.outputAcc ≠ "" then [LogMessage.mk Sender.agent t.outputAcc] else []) := by
  obtain ⟨i, o⟩ := t
  by_cases hi : i = "" <;> by_cases ho : o = "" <;>
    simp [handleTurnComplete, hi, ho]

/-- C6 counterexample: the claim says an event carrying both transcription
fragments appends to both accumulators, but the code's `else if` skips the
input branch whenever an output fragment is present: from empty
accumulators, an event with output fragment "a" and input fragment "b"
leaves the inbound accumulator empty instead of "b". -/
theorem transcription_both_counterexample :
    handleTranscription (some "a") (some "b") ⟨"", ""⟩ =
      (⟨"", "a"⟩ : TranscriptState) ∧
    (handleTranscription (some "a") (some "b") ⟨"", ""⟩).inputAcc ≠ "b" := by
  constructor
  · rfl
  · decide

/-- C6 amended: an outbound fragment, when present, is appended to the
outbound accumulator; an inbound fragment is appended to the inbound
accumulator only when it is present AND the same event carries no outbound
fragment — an event carrying both appends only to the outbound
accumulator. -/
theorem transcription_append (outFrag inFrag : Option String) (t : TranscriptState) :
    (handleTranscription outFrag inFrag t).outputAcc =
      t.outputAcc ++ outFrag.getD "" ∧
    (handleTranscription outFrag inFrag t).inputAcc =
      t.inputAcc ++
        (match outFrag, inFrag with
         | none, some f => f
         | _, _ => "") := by
  cases outFrag <;> cases inFrag <;>
    simp [handleTranscription, Option.getD]

/-- C1 counterexample: the claim says a chunk captured while the session
promise is still unresolved is never sent, at any later moment.  In the
code the capture callback calls `.then(send)` on the pending promise, which
queues the send; when the promise resolves the chunk IS sent: from a
pending promise with no queued sends, processing chunk 7 and then resolving
the promise yields exactly one send of chunk 7, not zero. -/
theorem capture_pending_counterexample :
    (onaudioprocess 7 ⟨false, some (SessionPromise.pending []), []⟩).sent = [] ∧
    ((resolveSession
        (onaudioprocess 7 ⟨false, some (SessionPromise.pending []), []⟩)).sent.count 7
      = 1) := by
  decide

/-- C1 amended: a chunk captured (unmuted) while the session promise exists
but is still unresolved is not sent at that moment, but its send is
registered on the promise behind any earlier registrations and is invoked
exactly once when the promise resolves; a chunk is dropped outright only
when the promise handle itself is null. -/
theorem capture_pending_queues (s : CaptureState) (c : Nat) (q : List Nat)
    (hq : s.sessionPromise = some (SessionPromise.pending q))
    (hm : s.isMuted = false) :
    (onaudioprocess c s).sent = s.sent ∧
    (onaudioprocess c s).sessionPromise =
      some (SessionPromise.pending (q ++ [c])) ∧
    (resolveSession (onaudioprocess c s)).sent = s.sent ++ q ++ [c] ∧
    (∀ s2 : CaptureState, s2.sessionPromise = none → onaudioprocess c s2 = s2) := by
  obtain ⟨m, p, sent⟩ := s
  cases hm
  cases hq
  refine ⟨rfl, rfl, ?_, ?_⟩
  · simp [onaudioprocess, resolveSession]
  · intro s2 h2
    obtain ⟨m2, p2, sent2⟩ := s2
    cases h2
    cases m2 <;> rfl

/-- C1 amended, witness: concrete instance with one already-queued chunk. -/
theorem capture_pending_queues_witness :
    (onaudioprocess 7 ⟨false, some (SessionPromise.pending [5]), [3]⟩).sent = [3] ∧
    (onaudioprocess 7 ⟨false, some (SessionPromise.pending [5]), [3]⟩).sessionPromise =
      some (SessionPromise.pending ([5] ++ [7])) ∧
    (resolveSession
        (onaudioprocess 7 ⟨false, some (SessionPromise.pending [5]), [3]⟩)).sent =
      [3] ++ [5] ++ [7] ∧
    (∀ s2 : CaptureState, s2.sessionPromise = none → onaudioprocess 7 s2 = s2) :=
  capture_pending_queues ⟨false, some (SessionPromise.pending [5]), [3]⟩ 7 [5] rfl rfl

/-- C4: a capture-callback invocation that reads the mute flag as on skips
the chunk entirely — the state (in particular the list of chunks handed to
the send operation) is unchanged — across any number of consecutive muted
cycles. -/
theorem muted_capture_sends_nothing (s : CaptureState) (hm : s.isMuted = true)
    (cs : List Nat) :
    processChunks cs s = s ∧ (processChunks cs s).sent = s.sent := by
  have step : ∀ c, onaudioprocess c s = s := by
    intro c
    simp [onaudioprocess, hm]
  have main : processChunks cs s = s := by
    induction cs with
    | nil => rfl
    | cons c rest ih =>
      show processChunks rest (onaudioprocess c s) = s
      rw [step c]
      exact ih
  exact ⟨main, by rw [main]⟩

/-- C4 witness: three muted cycles with a live session send nothing. -/
theorem muted_capture_sends_nothing_witness :
    processChunks [1, 2, 3] ⟨true, some SessionPromise.resolved, []⟩ =
      (⟨true, some SessionPromise.resolved, []⟩ : CaptureState) ∧
    (processChunks [1, 2, 3] ⟨true, some SessionPromise.resolved, []⟩).sent = [] :=
  muted_capture_sends_nothing ⟨true, some SessionPromise.resolved, []⟩ rfl [1, 2, 3]

/-- C3: processing an interruption stops every PlaybackSource in the active
set, leaves the active set empty and resets nextStartTime to zero, so a
fragment arriving immediately afterwards (at any clock time ≥ 0) is
scheduled exactly at the current clock time. -/
theorem interrupt_resets_scheduler (s : SchedulerState) (clock dur : ℚ)
    (hc : 0 ≤ clock) :
    (handleInterrupted s).1 = ⟨0, []⟩ ∧
    (handleInterrupted s).2 = s.sources ∧
    (scheduleFragment clock dur (handleInterrupted s).1).2.startTime = clock := by
  refine ⟨rfl, rfl, ?_⟩
  simp [handleInterrupted, scheduleFragment, max_eq_right hc]

/-- C3 witness: a scheduler mid-playback (nextStartTime 5, one active
source) interrupted, then a fragment at clock time 2 schedules at 2. -/
theorem interrupt_resets_scheduler_witness :
    (handleInterrupted ⟨5, [⟨0, 5⟩]⟩).1 = (⟨0, []⟩ : SchedulerState) ∧
    (handleInterrupted ⟨5, [⟨0, 5⟩]⟩).2 = [⟨0, 5⟩] ∧
    (scheduleFragment 2 1 (handleInterrupted ⟨5, [⟨0, 5⟩]⟩).1).2.startTime = 2 := by
  have h := interrupt_resets_scheduler ⟨5, [⟨0, 5⟩]⟩ 2 1 (by norm_num)
  simpa using h

/-- Stopping already-stopped tracks produces no release events. -/
theorem filter_unstopped_of_all_stopped (ts : List MediaTrack) :
    (ts.map fun _ => MediaTrack.mk true).filter (fun t => !t.stopped) = [] := by
  induction ts with
  | nil => rfl
  | cons a rest ih => simp [ih]

/-- C7: one disconnect leaves the state disconnected with logs and both
transcription accumulators empty, nextStartTime zero and the active source
set empty; a second disconnect from that state performs no observable
resource release (no track transitions to stopped again, no context is
closed again) and returns the very same fully-reset state. -/
theorem disconnect_idempotent (s : AppState) :
    (disconnect s).1.connectionState = ConnectionState.disconnected ∧
    (disconnect s).1.logs = [] ∧
    (disconnect s).1.inputAcc = "" ∧
    (disconnect s).1.outputAcc = "" ∧
    (disconnect s).1.nextStartTime = 0 ∧
    (disconnect s).1.sources = [] ∧
    (disconnect s).1.sessionPromise = none ∧
    disconnect (disconnect s).1 = ((disconnect s).1, []) := by
  refine ⟨rfl, rfl, rfl, rfl, rfl, rfl, rfl, ?_⟩
  obtain ⟨cs, lg, m, nst, src, sp, ia, oa, stream, ic, oc⟩ := s
  cases stream with
  | none => rfl
  | some ts =>
    simp [disconnect, filter_unstopped_of_all_stopped, List.map_map, Function.comp]

/-- C8: each fatal failure — microphone acquisition failure or the
transport's error event — moves the connection state to `error` and appends
exactly one system log entry, leaving the transport handle untouched (no
auto-retry: no new connection is initiated); the non-fatal per-chunk
failures append no user-visible log entry: a throwing send changes nothing
at all, and a rejecting fragment decode leaves the logs, the connection
state and the source set unchanged — only the already-executed clock bump
of line 229 remains in `nextStartTime`. -/
theorem fatal_and_nonfatal_errors (s : AppState) (clock : ℚ) :
    (handleMicFailure s).connectionState = ConnectionState.error ∧
    (handleMicFailure s).logs = s.logs ++
      [LogMessage.mk Sender.system "Mikrofon hatası. Lütfen izinleri kontrol edin."] ∧
    (handleMicFailure s).sessionPromise = s.sessionPromise ∧
    (handleError s).connectionState = ConnectionState.error ∧
    (handleError s).logs = s.logs ++
      [LogMessage.mk Sender.system "Bağlantı hatası oluştu."] ∧
    (handleError s).sessionPromise = s.sessionPromise ∧
    handleSendFailure s = s ∧
    (handleDecodeFailure clock s).logs = s.logs ∧
    (handleDecodeFailure clock s).connectionState = s.connectionState ∧
    (handleDecodeFailure clock s).nextStartTime = max s.nextStartTime clock ∧
    (handleDecodeFailure clock s).sources = s.sources ∧
    (handleDecodeFailure clock s).sessionPromise = s.sessionPromise :=
  ⟨rfl, rfl, rfl, rfl, rfl, rfl, rfl, rfl, rfl, rfl, rfl, rfl⟩

/-- C9 counterexample: the claim says the transport's close event resets
the session like an explicit disconnect; in the code `onclose` only sets
the connection state and appends a log.  From a connected state with
nextStartTime 5, one scheduled source, a resolved session promise and a
non-empty inbound accumulator, all four survive the close event
un-reset. -/
theorem close_counterexample :
    (handleClose ⟨ConnectionState.connected, [], false, 5, [⟨0, 5⟩],
        some SessionPromise.resolved, "merhaba", "", some [⟨false⟩],
        some (), some ()⟩).nextStartTime ≠ 0 ∧
    (handleClose ⟨ConnectionState.connected, [], false, 5, [⟨0, 5⟩],
        some SessionPromise.resolved, "merhaba", "", some [⟨false⟩],
        some (), some ()⟩).sources ≠ [] ∧
    (handleClose ⟨ConnectionState.connected, [], false, 5, [⟨0, 5⟩],
        some SessionPromise.resolved, "merhaba", "", some [⟨false⟩],
        some (), some ()⟩).sessionPromise ≠ none ∧
    (handleClose ⟨ConnectionState.connected, [], false, 5, [⟨0, 5⟩],
        some SessionPromise.resolved, "merhaba", "", some [⟨false⟩],
        some (), some ()⟩).inputAcc ≠ "" := by
  refine ⟨?_, ?_, ?_, ?_⟩ <;> simp [handleClose]

/-- C9 amended: on the transport's close event the connection state becomes
disconnected and exactly one system log entry is appended; the transport
handle, next-playback-start-time, scheduled-source set, transcription
accumulators, stream and audio contexts are left unchanged — they are
reset only by an explicit disconnect, not by a remote close. -/
theorem close_sets_state_only (s : AppState) :
    (handleClose s).connectionState = ConnectionState.disconnected ∧
    (handleClose s).logs = s.logs ++ [LogMessage.mk Sender.system "Bağlantı kesildi."] ∧
    (handleClose s).sessionPromise = s.sessionPromise ∧
    (handleClose s).nextStartTime = s.nextStartTime ∧
    (handleClose s).sources = s.sources ∧
    (handleClose s).inputAcc = s.inputAcc ∧
    (handleClose s).outputAcc = s.outputAcc ∧
    (handleClose s).stream = s.stream ∧
    (handleClose s).inputCtx = s.inputCtx ∧
    (handleClose s).outputCtx = s.outputCtx :=
  ⟨rfl, rfl, rfl, rfl, rfl, rfl, rfl, rfl, rfl, rfl⟩

/-- C10: with the API key absent, a connect request only appends one system
log message and returns: the connection state is unchanged (from
disconnected it stays disconnected, never entering connecting), the
microphone is not acquired and no transport is opened. -/
theorem connect_without_api_key (key : Option String) (s : AppState)
    (hk : apiKeyPresent key = false)
    (hs : s.connectionState = ConnectionState.disconnected) :
    connectRequest key s =
      ({ s with logs := s.logs ++ [LogMessage.mk Sender.system
          "API Key eksik. Lütfen metadata/env kontrol edin."] }, []) ∧
    (connectRequest key s).1.connectionState = ConnectionState.disconnected ∧
    (connectRequest key s).2 = [] := by
  have h1 : connectRequest key s =
      ({ s with logs := s.logs ++ [LogMessage.mk Sender.system
          "API Key eksik. Lütfen metadata/env kontrol edin."] }, []) := by
    simp [connectRequest, hk]
  exact ⟨h1, by rw [h1]; exact hs, by rw [h1]⟩

/-- C10 witness: connecting from the initial state with no API key. -/
theorem connect_without_api_key_witness :
    connectRequest none initialAppState =
      ({ initialAppState with logs := initialAppState.logs ++
          [LogMessage.mk Sender.system
            "API Key eksik. Lütfen metadata/env kontrol edin."] }, []) ∧
    (connectRequest none initialAppState).1.connectionState =
      ConnectionState.disconnected ∧
    (connectRequest none initialAppState).2 = [] :=
  connect_without_api_key none initialAppState rfl rfl

/-- Unfolding `runScheduleStarts` one fragment. -/
theorem runScheduleStarts_cons (s : SchedulerState) (clock dur : ℚ)
    (rest : List (ℚ × ℚ)) :
    runScheduleStarts s ((clock, dur) :: rest) =
      max s.nextStartTime clock ::
        runScheduleStarts
          ⟨max s.nextStartTime clock + dur,
           s.sources ++ [⟨max s.nextStartTime clock, dur⟩]⟩ rest := rfl

/-- Unfolding `runScheduleState` one fragment. -/
theorem runScheduleState_cons (s : SchedulerState) (clock dur : ℚ)
    (rest : List (ℚ × ℚ)) :
    runScheduleState s ((clock, dur) :: rest) =
      runScheduleState
        ⟨max s.nextStartTime clock + dur,
         s.sources ++ [⟨max s.nextStartTime clock, dur⟩]⟩ rest := rfl

/-- Consecutive scheduled start times: each is at least the previous start
plus the previous duration, with equality when the next fragment's clock
time has not yet passed that point. -/
theorem runScheduleStarts_step (frags : List (ℚ × ℚ)) :
    ∀ (s : SchedulerState) (i : ℕ), i + 1 < frags.length →
      (runScheduleStarts s frags).getD i 0 + (frags.getD i (0, 0)).2 ≤
        (runScheduleStarts s frags).getD (i + 1) 0 ∧
      ((frags.getD (i + 1) (0, 0)).1 ≤
          (runScheduleStarts s frags).getD i 0 + (frags.getD i (0, 0)).2 →
        (runScheduleStarts s frags).getD (i + 1) 0 =
          (runScheduleStarts s frags).getD i 0 + (frags.getD i (0, 0)).2) := by
  induction frags with
  | nil => intro s i hi; simp at hi
  | cons p rest ih =>
    intro s i hi
    obtain ⟨pc, pd⟩ := p
    cases i with
    | zero =>
      cases rest with
      | nil => simp at hi
      | cons q rest2 =>
        obtain ⟨qc, qd⟩ := q
        rw [runScheduleStarts_cons, runScheduleStarts_cons]
        simp only [List.getD_cons_zero, List.getD_cons_succ]
        constructor
        · exact le_max_left _ _
        · intro h; exact max_eq_left h
    | succ j =>
      rw [runScheduleStarts_cons]
      have hj : j + 1 < rest.length := by
        simp only [List.length_cons] at hi
        omega
      have := ih ⟨max s.nextStartTime pc + pd,
        s.sources ++ [⟨max s.nextStartTime pc, pd⟩]⟩ j hj
      simpa only [List.getD_cons_succ] using this

/-- Each scheduled start time is the max of the scheduler state reached so
far and the fragment's clock time, and the state is then advanced by
exactly the fragment's duration. -/
theorem runScheduleStarts_getD (frags : List (ℚ × ℚ)) :
    ∀ (s : SchedulerState) (i : ℕ), i < frags.length →
      (runScheduleStarts s frags).getD i 0 =
        max (runScheduleState s (frags.take i)).nextStartTime
          (frags.getD i (0, 0)).1 ∧
      (runScheduleState s (frags.take (i + 1))).nextStartTime =
        (runScheduleStarts s frags).getD i 0 + (frags.getD i (0, 0)).2 := by
  induction frags with
  | nil => intro s i hi; simp at hi
  | cons p rest ih =>
    intro s i hi
    obtain ⟨pc, pd⟩ := p
    cases i with
    | zero =>
      rw [runScheduleStarts_cons]
      constructor
      · simp [runScheduleState]
      · simp [runScheduleState_cons, runScheduleState, scheduleFragment]
    | succ j =>
      rw [runScheduleStarts_cons]
      have hj : j < rest.length := by
        simp only [List.length_cons] at hi
        omega
      have := ih ⟨max s.nextStartTime pc + pd,
        s.sources ++ [⟨max s.nextStartTime pc, pd⟩]⟩ j hj
      simpa only [List.getD_cons_succ, List.take_succ_cons,
        runScheduleState_cons] using this

/-- C2: for fragments (clock, duration) arriving in order with nonnegative
durations, fragment i's start time equals max(current clock, accumulated
nextStartTime), nextStartTime then advances by exactly that duration, and
consecutive start times satisfy start(i+1) ≥ start(i) + d(i) (hence are
non-decreasing), with equality whenever fragment i+1 arrives no later than
the scheduled end of fragment i (arrival faster than playback). -/
theorem gapless_scheduling (s : SchedulerState) (frags : List (ℚ × ℚ))
    (hd : ∀ p ∈ frags, 0 ≤ p.2) (i : ℕ) (hi : i + 1 < frags.length) :
    (runScheduleStarts s frags).getD i 0 =
      max (runScheduleState s (frags.take i)).nextStartTime
        (frags.getD i (0, 0)).1 ∧
    (runScheduleState s (frags.take (i + 1))).nextStartTime =
      (runScheduleStarts s frags).getD i 0 + (frags.getD i (0, 0)).2 ∧
    (runScheduleStarts s frags).getD i 0 + (frags.getD i (0, 0)).2 ≤
      (runScheduleStarts s frags).getD (i + 1) 0 ∧
    (runScheduleStarts s frags).getD i 0 ≤
      (runScheduleStarts s frags).getD (i + 1) 0 ∧
    ((frags.getD (i + 1) (0, 0)).1 ≤
        (runScheduleStarts s frags).getD i 0 + (frags.getD i (0, 0)).2 →
      (runScheduleStarts s frags).getD (i + 1) 0 =
        (runScheduleStarts s frags).getD i 0 + (frags.getD i (0, 0)).2) := by
  obtain ⟨h1, h2⟩ := runScheduleStarts_getD frags s i (Nat.lt_of_succ_lt hi)
  obtain ⟨h3, h4⟩ := runScheduleStarts_step frags s i hi
  have hmem : frags.getD i (0, 0) ∈ frags := by
    rw [List.getD_eq_getElem _ _ (Nat.lt_of_succ_lt hi)]
    exact List.getElem_mem _
  have hd0 : 0 ≤ (frags.getD i (0, 0)).2 := hd _ hmem
  exact ⟨h1, h2, h3, le_trans (le_add_of_nonneg_right hd0) h3, h4⟩

/-- C2 witness: two fragments of durations 1/2 and 1/3 arriving at clock
time 0 from a fresh scheduler. -/
theorem gapless_scheduling_witness :
    (runScheduleStarts ⟨0, []⟩ [((0 : ℚ), (1/2 : ℚ)), (0, 1/3)]).getD 0 0 =
      max (runScheduleState ⟨0, []⟩
          (List.take 0 [((0 : ℚ), (1/2 : ℚ)), (0, 1/3)])).nextStartTime
        (([((0 : ℚ), (1/2 : ℚ)), (0, 1/3)].getD 0 (0, 0)).1) ∧
    (runScheduleState ⟨0, []⟩
        (List.take (0 + 1) [((0 : ℚ), (1/2 : ℚ)), (0, 1/3)])).nextStartTime =
      (runScheduleStarts ⟨0, []⟩ [((0 : ℚ), (1/2 : ℚ)), (0, 1/3)]).getD 0 0 +
        (([((0 : ℚ), (1/2 : ℚ)), (0, 1/3)].getD 0 (0, 0)).2) ∧
    (runScheduleStarts ⟨0, []⟩ [((0 : ℚ), (1/2 : ℚ)), (0, 1/3)]).getD 0 0 +
        (([((0 : ℚ), (1/2 : ℚ)), (0, 1/3)].getD 0 (0, 0)).2) ≤
      (runScheduleStarts ⟨0, []⟩ [((0 : ℚ), (1/2 : ℚ)), (0, 1/3)]).getD (0 + 1) 0 ∧
    (runScheduleStarts ⟨0, []⟩ [((0 : ℚ), (1/2 : ℚ)), (0, 1/3)]).getD 0 0 ≤
      (runScheduleStarts ⟨0, []⟩ [((0 : ℚ), (1/2 : ℚ)), (0, 1/3)]).getD (0 + 1) 0 ∧
    (([((0 : ℚ), (1/2 : ℚ)), (0, 1/3)].getD (0 + 1) (0, 0)).1 ≤
        (runScheduleStarts ⟨0, []⟩ [((0 : ℚ), (1/2 : ℚ)), (0, 1/3)]).getD 0 0 +
          (([((0 : ℚ), (1/2 : ℚ)), (0, 1/3)].getD 0 (0, 0)).2) →
      (runScheduleStarts ⟨0, []⟩ [((0 : ℚ), (1/2 : ℚ)), (0, 1/3)]).getD (0 + 1) 0 =
        (runScheduleStarts ⟨0, []⟩ [((0 : ℚ), (1/2 : ℚ)), (0, 1/3)]).getD 0 0 +
          (([((0 : ℚ), (1/2 : ℚ)), (0, 1/3)].getD 0 (0, 0)).2)) :=
  gapless_scheduling ⟨0, []⟩ [((0 : ℚ), (1/2 : ℚ)), (0, 1/3)]
    (by intro p hp; simp at hp; rcases hp with rfl | rfl <;> norm_num)
    0 (by norm_num)

end VoiceAgent
